import Mathlib

/-!
Verification of the SceneJS run-time core against its specification.

The development shallowly embeds four source files:
* `src/scenejs/events/eventsModule.js` — the synchronous priority-ordered
  event bus (`addListener`, `fireEvent`);
* `src/scenejs/morphGeometry/morphGeometry.js` — the morph-target geometry
  controller (per-canvas resource cache, transactional buffer allocation,
  keyframe bracketing, traversal stack);
* `src/scenejs/transformation/camera/camera.js` — the camera node with its
  memoized projection rebuild.

JavaScript numbers are modelled as `ℚ` where arithmetic matters and as `Int`
for priorities; JS objects used as string-keyed maps are modelled as
association lists preserving insertion order (JS `for (k in o)` enumeration
order for string keys); a JS property holding `null`/missing data is an
`Option`.
-/

namespace SceneJS

/-! ## Event bus (`eventsModule.js`)

A registered handler couples a command (kept abstract as `α`) with its
priority.  `addListener` inserts before the first handler of strictly
greater priority (the `list.splice(i, 0, handler)` loop), defaulting the
priority to the list length at registration time; `fireEvent` walks the
live list from index 0, re-reading the length each step.  -/

structure Handler (α : Type) where
  command : α
  priority : Int
  deriving Repr, DecidableEq

/-- The `for (var i = 0; ...) if (list[i].priority > handler.priority)
list.splice(i, 0, handler)` insertion loop of `addListener`, with the
trailing `list.push(handler)` when no element has strictly greater
priority. -/
def spliceInsert {α : Type} (h : Handler α) : List (Handler α) → List (Handler α)
  | [] => [h]
  | x :: xs => if h.priority < x.priority then h :: x :: xs else x :: spliceInsert h xs

/-- The event registry: one handler list per event type.  `events` in the
source is a JS array indexed by event-kind number; absent entries read as
`[]` (`if (!list) list = []`). -/
def Registry (α : Type) : Type := Nat → List (Handler α)

def emptyRegistry (α : Type) : Registry α := fun _ => []

/-- The source `addListener(type, command, priority)`: the handler's priority defaults
to the current list length when the argument is omitted, and the handler is
inserted before the first strictly-greater-priority entry. -/
def addListener {α : Type} (events : Registry α) (type : Nat) (command : α)
    (priority : Option Int) : Registry α :=
  fun t =>
    if t = type then
      let list := events type
      spliceInsert ⟨command, priority.getD list.length⟩ list
    else events t

end SceneJS

namespace SceneJS

/-! ### Ordering of the handler list (claim C3)

Registrations are tagged with their registration index (recovered from the
command by a function `f`) so that stability can be stated: the final list
must be pairwise increasing in the lexicographic sense
`priority < priority ∨ (equal priorities ∧ earlier registration)`. -/

/-- Dispatch order relation on handlers, the registration index being
recovered from the command by `f`: strictly smaller priority, or equal
priority and earlier registration. -/
def handlerOrd {α : Type} (f : α → Nat) (a b : Handler α) : Prop :=
  a.priority < b.priority ∨ (a.priority = b.priority ∧ f a.command < f b.command)

/-- Registers a whole sequence of listeners for event `type`; the `k`-th
entry of `regs` carries that call's optional explicit priority argument,
and its command is `cmdOf k`, tagging the callback with its registration
index. -/
def registerFold {α : Type} (type : Nat) (cmdOf : Nat → α)
    (regs : List (Option Int)) : Registry α :=
  regs.enum.foldl (fun e pk => addListener e type (cmdOf pk.1) pk.2) (emptyRegistry α)

/-! ### Dispatch semantics of `fireEvent` (claims C3 and C5)

A callback is a finite list of effects it performs when invoked: log an
observable tag, or call `addListener` (which is exactly what a subscriber
can do to the bus).  `fireEvent` walks the handler list for the event type
from index 0; since `addListener` splices into the very array the loop is
walking (`events[type]` is mutated in place) the loop re-reads the list and
its length from the current registry on every iteration.  The loop is given
fuel because callbacks may lengthen the list mid-dispatch. -/

inductive Action : Type where
  | log : Nat → Action
  | addIn : Nat → Option Int → List Action → Action

structure EventState where
  events : Registry (List Action)
  log : List Nat

def runAction (st : EventState) : Action → EventState
  | .log t => { st with log := st.log ++ [t] }
  | .addIn ty p cb => { st with events := addListener st.events ty cb p }

def runActions (st : EventState) (as : List Action) : EventState :=
  as.foldl runAction st

/-- The `for (var i = 0; i < list.length; i++) list[i].command(params)`
loop of `fireEvent`, reading the live handler list on each iteration. -/
def fireLoop (type : Nat) : Nat → Nat → EventState → EventState
  | 0, _, st => st
  | fuel + 1, i, st =>
      let list := st.events type
      if hlt : i < list.length then
        fireLoop type fuel (i + 1) (runActions st (list.get ⟨i, hlt⟩).command)
      else st

def fireEvent (fuel type : Nat) (st : EventState) : EventState :=
  fireLoop type fuel 0 st

/-- Tag of a pure logging callback (`0` for any other shape, unused). -/
def tagOf : List Action → Nat
  | [Action.log t] => t
  | _ => 0

/-- A callback that only logs its tag and touches nothing else. -/
def isLogCmd (as : List Action) : Prop := ∃ t, as = [Action.log t]

/-! ### Mid-dispatch registration (claim C5)

`addListener` splices into the same array that an in-flight `fireEvent`
loop is iterating, and the loop compares `i` against the live
`list.length`; a listener appended behind the current index during a
dispatch is therefore invoked within that same dispatch. -/

/-- A registry for event type 5 holding one priority-0 listener that logs
`a` and then registers (with the default priority) a second listener for
the same type whose callback logs `b`. -/
def midDispatchRegistry (a b : Nat) : Registry (List Action) :=
  addListener (emptyRegistry _) 5
    [Action.log a, Action.addIn 5 none [Action.log b]] (some 0)

end SceneJS

namespace SceneJS

/-! ## Morph geometry module (`morphGeometry.js`)

GPU buffers are modelled by numeric handles; an `AllocState` tracks the
currently-allocated buffer ids, the next fresh id, and a failure oracle
(`budget`: the number of further allocations that will succeed, an
out-of-memory condition making the `new SceneJS_webgl_ArrayBuffer`
constructor throw afterwards).  JS objects used as maps (`canvasMorphs`,
the per-canvas morph maps) are association lists in insertion order, a
property holding JS `null` being `some none`. -/

structure Canvas where
  canvasId : String
  deriving DecidableEq, Repr

/-- One morph target after buffer allocation: the four optional attribute
buffers created by `_createMorph` (`vertexBuf`, `normalBuf`, `uvBuf`,
`uvBuf2`). -/
structure MTarget where
  vertexBuf : Option Nat
  normalBuf : Option Nat
  uvBuf : Option Nat
  uvBuf2 : Option Nat
  deriving DecidableEq, Repr

/-- The buffers of a target in the order the source walks them
(vertex, normal, uv, uv2). -/
def MTarget.bufs (t : MTarget) : List Nat :=
  t.vertexBuf.toList ++ t.normalBuf.toList ++ t.uvBuf.toList ++ t.uvBuf2.toList

structure Morph where
  canvas : Canvas
  resource : String
  keys : List ℚ
  targets : List MTarget
  factor : ℚ
  deriving DecidableEq, Repr

def Morph.bufs (m : Morph) : List Nat := (m.targets.map MTarget.bufs).flatten

/-- Association-list lookup, JS `obj[key]` (`none` = property absent). -/
def alookup {β : Type} : List (String × β) → String → Option β
  | [], _ => none
  | (k, v) :: rest, key => if k = key then some v else alookup rest key

/-- Association-list assignment, JS `obj[key] = v`: overwrites in place if
the key exists, otherwise appends (JS string-key enumeration order). -/
def aset {β : Type} : List (String × β) → String → β → List (String × β)
  | [], key, v => [(key, v)]
  | (k, w) :: rest, key, v =>
      if k = key then (k, v) :: rest else (k, w) :: aset rest key v

/-- A per-canvas morph map (`canvasMorphs[canvasId]`): resource id to morph,
`some none` being an entry that was set to JS `null`. -/
abbrev MorphMap : Type := List (String × Option Morph)

inductive MorphErr : Type where
  | allocFailed
  | morphNotFound
  | typeError
  | illegalNodeConfig
  deriving DecidableEq, Repr

structure AllocState where
  live : List Nat
  nextId : Nat
  budget : Nat
  deriving DecidableEq, Repr

/-- Allocation `new SceneJS_webgl_ArrayBuffer(...)`: returns a fresh buffer handle, or
throws (out of memory) once the budget is exhausted, allocating nothing. -/
def allocBuf (s : AllocState) : Except MorphErr (Nat × AllocState) :=
  if s.budget = 0 then .error .allocFailed
  else .ok (s.nextId, ⟨s.live ++ [s.nextId], s.nextId + 1, s.budget - 1⟩)

/-- Release, `bufferHandle.destroy()`. -/
def destroyBuf (s : AllocState) (id : Nat) : AllocState :=
  { s with live := s.live.erase id }

/-- Destroy the buffers of one target in source order (`vertexBuf`,
`normalBuf`, `uvBuf`, `uvBuf2`, each only if present). -/
def destroyTarget (s : AllocState) (t : MTarget) : AllocState :=
  t.bufs.foldl destroyBuf s

def destroyTargets (s : AllocState) (ts : List MTarget) : AllocState :=
  ts.foldl destroyTarget s

/-- One target of the inline source data: the optional attribute arrays. -/
structure DataTarget where
  positions : Option (List ℚ)
  normals : Option (List ℚ)
  uv : Option (List ℚ)
  uv2 : Option (List ℚ)
  deriving DecidableEq, Repr

structure MorphData where
  keys : List ℚ
  targets : List DataTarget
  deriving DecidableEq, Repr

/-- Allocation of one optional channel: the source allocates only when the
property is present and non-empty (`target.positions &&
target.positions.length > 0`).  The `Bool` reports a thrown allocation
failure. -/
def chanAlloc (s : AllocState) (chan : Option (List ℚ)) :
    Option Nat × AllocState × Bool :=
  match chan with
  | none => (none, s, false)
  | some l =>
      if 0 < l.length then
        match allocBuf s with
        | .ok (id, s') => (some id, s', false)
        | .error _ => (none, s, true)
      else (none, s, false)

/-- The body of `_createMorph`'s per-target loop: `newTarget` is pushed
before any allocation, so on a mid-target failure the partially filled
target is still in `morph.targets` for the recovery loop to destroy. -/
def allocTarget (s : AllocState) (t : DataTarget) : MTarget × AllocState × Bool :=
  match chanAlloc s t.positions with
  | (v, s1, true) => (⟨v, none, none, none⟩, s1, true)
  | (v, s1, false) =>
    match chanAlloc s1 t.normals with
    | (n, s2, true) => (⟨v, n, none, none⟩, s2, true)
    | (n, s2, false) =>
      match chanAlloc s2 t.uv with
      | (u, s3, true) => (⟨v, n, u, none⟩, s3, true)
      | (u, s3, false) =>
        match chanAlloc s3 t.uv2 with
        | (u2, s4, f4) => (⟨v, n, u, u2⟩, s4, f4)

def allocTargets (s : AllocState) : List DataTarget → List MTarget × AllocState × Bool
  | [] => ([], s, false)
  | t :: ts =>
      let (mt, s', f) := allocTarget s t
      if f then ([mt], s', true)
      else
        let (mts, s'', f') := allocTargets s' ts
        (mt :: mts, s'', f')

structure MorphHandle where
  canvasId : String
  resource : String
  deriving DecidableEq, Repr

/-- The source `_createMorph(resource, data, options)`: allocates all buffers of all
targets; on a thrown allocation failure the `catch` block destroys every
buffer of every target pushed so far and re-raises, and the resource is
only written into the cache (`currentMorphs[resource] = morph`) after the
loop has completed. -/
def _createMorph (canvas : Canvas) (resource : String) (data : MorphData)
    (cache : MorphMap) (s : AllocState) :
    Except MorphErr MorphHandle × MorphMap × AllocState :=
  match allocTargets s data.targets with
  | (mts, s', true) => (.error .allocFailed, cache, destroyTargets s' mts)
  | (mts, s', false) =>
      (.ok ⟨canvas.canvasId, resource⟩,
       aset cache resource (some ⟨canvas, resource, data.keys, mts, 0⟩), s')

/-- The body of `destroyMorph(morph)` for a non-null morph: buffers are
released only when `document.getElementById(morph.canvas.canvasId)` still
finds the canvas element (`doc` is the set of live element ids), and the
cache entry of `morph.resource` in `canvasMorphs[morph.canvas.canvasId]`
is then set to JS `null` — not deleted. -/
def destroyMorphCore (doc : List String) (m : Morph)
    (cm : List (String × MorphMap)) (s : AllocState) :
    List (String × MorphMap) × AllocState :=
  let s' := if m.canvas.canvasId ∈ doc then destroyTargets s m.targets else s
  let cm' :=
    match alookup cm m.canvas.canvasId with
    | none => cm
    | some morphs => aset cm m.canvas.canvasId (aset morphs m.resource none)
  (cm', s')

/-- The source `destroyMorph(morph)` as called with an arbitrary cache value: called on
JS `null` it dereferences `morph.canvas` and throws a TypeError. -/
def destroyMorph (doc : List String) (mo : Option Morph)
    (cm : List (String × MorphMap)) (s : AllocState) :
    Except MorphErr (List (String × MorphMap) × AllocState) :=
  match mo with
  | none => .error .typeError
  | some m => .ok (destroyMorphCore doc m cm s)

/-- The source `destroyMorphGeometry(handle)`: silent no-op when the canvas's morph map
is gone; `morph not found` when the map is alive but the entry is absent or
null; otherwise destroys the morph. -/
def destroyMorphGeometry (doc : List String) (h : MorphHandle)
    (cm : List (String × MorphMap)) (s : AllocState) :
    Except MorphErr (List (String × MorphMap) × AllocState) :=
  match alookup cm h.canvasId with
  | none => .ok (cm, s)
  | some morphs =>
      match alookup morphs h.resource with
      | none => .error .morphNotFound
      | some none => .error .morphNotFound
      | some (some m) => .ok (destroyMorphCore doc m cm s)

/-- The inner loop of the `RESET` listener over one canvas's morph map:
`for (var resource in morphs) destroyMorph(morphs[resource])`.  An entry
left at JS `null` by an earlier destroy makes `destroyMorph` throw. -/
def resetMorphs (doc : List String) :
    List (String × Option Morph) → List (String × MorphMap) × AllocState →
    Except MorphErr (List (String × MorphMap) × AllocState)
  | [], st => .ok st
  | (_, mo) :: rest, (cm, s) =>
      match destroyMorph doc mo cm s with
      | .error e => .error e
      | .ok st' => resetMorphs doc rest st'

/-- The outer loop of the `RESET` listener over all tracked canvases. -/
def resetCanvases (doc : List String) :
    List (String × MorphMap) → List (String × MorphMap) × AllocState →
    Except MorphErr (List (String × MorphMap) × AllocState)
  | [], st => .ok st
  | (_, morphs) :: rest, st =>
      match resetMorphs doc morphs st with
      | .error e => .error e
      | .ok st' => resetCanvases doc rest st'

/-- The `RESET` listener: destroys every cached morph of every canvas, then
clears all bookkeeping (`canvasMorphs = {}`); a thrown TypeError escapes to
the publisher before the clearing happens. -/
def resetListener (doc : List String)
    (cm : List (String × MorphMap)) (s : AllocState) :
    Except MorphErr (List (String × MorphMap) × AllocState) :=
  match resetCanvases doc cm (cm, s) with
  | .error e => .error e
  | .ok (_, s') => .ok ([], s')

/-! ### Traversal state stack (claim C8)

JS arrays accept any integer index, so the sparse `idStack`/`morphStack`
arrays are total maps `Int → Option _`; `stackLen` is an `Int` because
nothing in the source keeps it non-negative. -/

structure MorphStackState where
  idStack : Int → Option Nat
  morphStack : Int → Option Morph
  stackLen : Int
  dirty : Bool

/-- The state-changing core of `pushMorphGeometry`: write the id and morph
at index `stackLen`, increment, mark dirty. -/
def pushFrame (st : MorphStackState) (id : Nat) (m : Morph) : MorphStackState :=
  { idStack := fun j => if j = st.stackLen then some id else st.idStack j,
    morphStack := fun j => if j = st.stackLen then some m else st.morphStack j,
    stackLen := st.stackLen + 1,
    dirty := true }

/-- The source `pushMorphGeometry(id, handle, factor)`: reads
`currentMorphs[handle.resource]` and sets `morph.factor` (throwing a
TypeError when the entry is absent or null), then pushes. -/
def pushMorphGeometry (morphs : MorphMap) (st : MorphStackState) (id : Nat)
    (handle : MorphHandle) (factor : ℚ) : Except MorphErr MorphStackState :=
  match alookup morphs handle.resource with
  | some (some m) => .ok (pushFrame st id { m with factor := factor })
  | _ => .error .typeError

/-- The source `popMorphGeometry()`: `stackLen--; dirty = true;` — the function body
contains no depth check and cannot signal an error. -/
def popMorphGeometry (st : MorphStackState) : Except MorphErr MorphStackState :=
  .ok { st with stackLen := st.stackLen - 1, dirty := true }

/-- The `SCENE_COMPILING` listener: lazily creates the canvas's morph map,
makes it current, and resets the stack depth to 0. -/
def sceneCompilingListener (cm : List (String × MorphMap)) (canvasId : String)
    (st : MorphStackState) :
    List (String × MorphMap) × MorphMap × MorphStackState :=
  let cm' :=
    match alookup cm canvasId with
    | none => aset cm canvasId ([] : MorphMap)
    | some _ => cm
  (cm', (alookup cm' canvasId).getD [], { st with stackLen := 0 })

/-- A traversal sequence of stack operations (claim C8). -/
inductive StackOp : Type where
  | push : Nat → Morph → StackOp
  | pop : StackOp

/-- Runs a sequence of pushes and pops against the stack state; `pop` goes
through `popMorphGeometry` (whose error case is unreachable). -/
def runStackOps (st : MorphStackState) : List StackOp → MorphStackState
  | [] => st
  | .push id m :: rest => runStackOps (pushFrame st id m) rest
  | .pop :: rest =>
      match popMorphGeometry st with
      | .ok st' => runStackOps st' rest
      | .error _ => st

/-- The net depth change of a sequence: pushes minus pops. -/
def stackDelta : List StackOp → Int
  | [] => 0
  | .push _ _ :: rest => stackDelta rest + 1
  | .pop :: rest => stackDelta rest - 1

/-- The module's stack state at load time: empty sparse arrays, depth 0. -/
def emptyMorphStack : MorphStackState :=
  ⟨fun _ => none, fun _ => none, 0, false⟩

/-! ### Render-phase bracketing (claim C1)

The `SCENE_RENDERING` listener selects the pair of morph targets enclosing
the blend factor.  For a valid morph `keys.length = targets.length`, so the
source's backwards scan `for (var i = morph.targets.length - 1; i >= 0; i--)`
starts at `keys.length - 1`.  Out-of-range key reads (JS `undefined`) are
`getD _ 0`; they never happen on the paths the theorems cover. -/

/-- The backwards scan for the first index (from `i` downwards) whose key is
strictly less than the factor; `none` when the loop runs out (`key1` would
stay `undefined` in the source). -/
def scanDown (keys : List ℚ) (factor : ℚ) : Nat → Option Nat
  | 0 => if keys.getD 0 0 < factor then some 0 else none
  | i + 1 => if keys.getD (i + 1) 0 < factor then some (i + 1) else scanDown keys factor i

/-- The target-frame selection of the `SCENE_RENDERING` listener: returns
`(key1, key2, factor-after-clamping)`.  `(0, 0, factor)` stands for the
JS-`undefined` outcome of an exhausted scan, unreachable for valid keys. -/
def bracketKeys (keys : List ℚ) (factor : ℚ) : Nat × Nat × ℚ :=
  if factor ≤ keys.getD 0 0 then (0, 1, keys.getD 0 0)
  else if keys.getD (keys.length - 1) 0 ≤ factor then
    (keys.length - 2, keys.length - 1, keys.getD (keys.length - 1) 0)
  else
    match scanDown keys factor (keys.length - 1) with
    | some i => (i, i + 1, factor)
    | none => (0, 0, factor)

/-- The quantity `normalizedFactor = (factor - morph.keys[key1]) / (morph.keys[key2] -
morph.keys[key1])` computed on the clamped factor. -/
def normalizedFactor (keys : List ℚ) (factor : ℚ) : ℚ :=
  let r := bracketKeys keys factor
  (r.2.2 - keys.getD r.1 0) / (keys.getD r.2.1 0 - keys.getD r.1 0)

/-- Claim C1 instantiated at one key sequence and factor, read as three
independent implications the way the spec sentence states them. -/
def c1ClaimAt (keys : List ℚ) (f : ℚ) : Prop :=
  (f ≤ keys.getD 0 0 →
    (bracketKeys keys f).1 = 0 ∧ (bracketKeys keys f).2.1 = 1) ∧
  (keys.getD (keys.length - 1) 0 ≤ f →
    (bracketKeys keys f).1 = keys.length - 2 ∧
    (bracketKeys keys f).2.1 = keys.length - 1) ∧
  (keys.getD 0 0 < f → f < keys.getD (keys.length - 1) 0 →
    keys.getD (bracketKeys keys f).1 0 < f ∧
    f ≤ keys.getD (bracketKeys keys f).2.1 0 ∧
    (∀ j, j < keys.length → keys.getD j 0 < f → j ≤ (bracketKeys keys f).1) ∧
    0 ≤ normalizedFactor keys f ∧ normalizedFactor keys f ≤ 1)

/-! ### Node-level validation `_setMorph` (claim C7) -/

structure SetMorphParams where
  targets : Option (List DataTarget)
  keys : Option (List ℚ)
  deriving DecidableEq, Repr

/-- JS `x || y` on an optional property (`undefined` is falsy; any array,
even empty, is truthy). -/
def jsOrList {β : Type} (x : Option (List β)) (d : List β) : List β :=
  match x with
  | none => d
  | some l => l

/-- The first defined channel over the targets (the first default-gathering
loop of `_setMorph`: `if (!positions && target.positions) positions =
target.positions.slice(0)`; `slice(0)` copies, which is the identity on
values). -/
def firstChan (f : DataTarget → Option (List ℚ)) (ts : List DataTarget) :
    Option (List ℚ) :=
  ts.foldl (fun acc t => match acc with | some l => some l | none => f t) none

/-- The second loop of `_setMorph`: each target's missing channels are
filled from the gathered defaults (which can themselves be absent). -/
def fillTargets (ts : List DataTarget) : List DataTarget :=
  let positions := firstChan (fun t => t.positions) ts
  let normals := firstChan (fun t => t.normals) ts
  let uv := firstChan (fun t => t.uv) ts
  let uv2 := firstChan (fun t => t.uv2) ts
  ts.map fun t =>
    ⟨(t.positions).orElse (fun _ => positions),
     (t.normals).orElse (fun _ => normals),
     (t.uv).orElse (fun _ => uv),
     (t.uv2).orElse (fun _ => uv2)⟩

/-- The source `MorphGeometry.prototype._setMorph(params)`: rejects fewer than two
targets, then a key/target count mismatch, then normalises the targets and
stores `attr.keys`/`attr.targets`.  It touches no cache and allocates no
buffers (creation happens later, at compile time), so a thrown
configuration error leaves no resource registered. -/
def _setMorph (params : SetMorphParams) :
    Except MorphErr (List ℚ × List DataTarget) :=
  let targets := jsOrList params.targets []
  if targets.length < 2 then .error .illegalNodeConfig
  else
    let keys := jsOrList params.keys []
    if keys.length ≠ targets.length then .error .illegalNodeConfig
    else .ok (keys, fillTargets targets)

end SceneJS

namespace SceneJS

/-! ## Camera node (`camera.js`)

The three optics variants are a sum type whose constructors carry the
fields in the order the source object literals declare them.  The external
matrix builders (`SceneJS_math_orthoMat4c`, `SceneJS_math_frustumMatrix4`,
`SceneJS_math_perspectiveMatrix4`) are out of the covered core; they are
modelled from the spec as opaque injective constructors recording their
arguments (for the perspective case the argument list before the
degrees-to-radians conversion, which is injective). -/

/-- The raw `optics` configuration object passed to `setOptics`; every field
optional, `type` a JS string. -/
structure OpticsParams where
  type : Option String
  fovy : Option ℚ
  aspect : Option ℚ
  near : Option ℚ
  far : Option ℚ
  left : Option ℚ
  right : Option ℚ
  top : Option ℚ
  bottom : Option ℚ
  deriving DecidableEq, Repr

/-- JS `x || d` on an optional numeric property: `undefined` and `0` are
falsy. -/
def jsOr (x : Option ℚ) (d : ℚ) : ℚ :=
  match x with
  | none => d
  | some v => if v = 0 then d else v

/-- The normalised `attr.optics` record built by `setOptics`. -/
inductive OpticsAttr : Type where
  | perspective (fovy aspect near far : ℚ)
  | ortho (left bottom near right top far : ℚ)
  | frustum (left bottom near right top far : ℚ)
  deriving DecidableEq, Repr

instance : Inhabited OpticsAttr := ⟨.perspective 0 0 0 0⟩

/-- The normalisation performed by `Camera.prototype.setOptics`: no argument means the
documented perspective default; otherwise dispatch on the `type` string
with per-field `||` defaults; a missing or unsupported type throws an
`ILLEGAL_NODE_CONFIG` error. -/
def setOpticsAttr (o : Option OpticsParams) : Except MorphErr OpticsAttr :=
  match o with
  | none => .ok (.perspective 60 1 (1/10) 5000)
  | some optics =>
      if optics.type = some "ortho" then
        .ok (.ortho (jsOr optics.left (-1)) (jsOr optics.bottom (-1))
          (jsOr optics.near (1/10)) (jsOr optics.right 1) (jsOr optics.top 1)
          (jsOr optics.far 5000))
      else if optics.type = some "frustum" then
        .ok (.frustum (jsOr optics.left (-1)) (jsOr optics.bottom (-1))
          (jsOr optics.near (1/10)) (jsOr optics.right 1) (jsOr optics.top 1)
          (jsOr optics.far 5000))
      else if optics.type = some "perspective" then
        .ok (.perspective (jsOr optics.fovy 60) (jsOr optics.aspect 1)
          (jsOr optics.near (1/10)) (jsOr optics.far 5000))
      else .error .illegalNodeConfig

/-- The derived matrix, as produced by the external math builders (opaque
constructors keyed by the builder and its arguments, in source argument
order). -/
inductive Matrix : Type where
  | orthoMat (left right bottom top near far : ℚ)
  | frustumMat (left right bottom top near far : ℚ)
  | perspectiveMat (fovyDegrees aspect near far : ℚ)
  deriving DecidableEq, Repr

instance : Inhabited Matrix := ⟨.orthoMat 0 0 0 0 0 0⟩

/-- The `_transform` record built by `Camera.prototype._rebuild`. -/
structure Transform where
  type : String
  optics : OpticsAttr
  matrix : Matrix
  deriving DecidableEq, Repr

/-- The transform `_rebuild` constructs for a given `attr.optics`. -/
def rebuildTransform (o : OpticsAttr) : Transform :=
  match o with
  | .ortho l b n r t f => ⟨"ortho", .ortho l b n r t f, .orthoMat l r b t n f⟩
  | .frustum l b n r t f => ⟨"frustum", .frustum l b n r t f, .frustumMat l r b t n f⟩
  | .perspective fo a n f =>
      ⟨"perspective", .perspective fo a n f, .perspectiveMat fo a n f⟩

/-- A camera node: `attr.optics`, the lazily built `_transform`
(`none` = JS `undefined`), `_compileMemoLevel`, and an instrumentation
counter of how many times `_rebuild` actually recomputed. -/
structure Camera where
  optics : OpticsAttr
  transform : Option Transform
  compileMemoLevel : Nat
  rebuildCount : Nat
  deriving DecidableEq, Repr

/-- Modelled from the spec: `_resetCompilationMemos` (defined on the node
base class, not among the covered source files) resets the memo level to 0
(invalid). -/
def _resetCompilationMemos (c : Camera) : Camera :=
  { c with compileMemoLevel := 0 }

/-- The source `Camera.prototype._rebuild`: recompute `_transform` only when the memo
level is 0, then set it to 1. -/
def _rebuild (c : Camera) : Camera :=
  if c.compileMemoLevel = 0 then
    { c with transform := some (rebuildTransform c.optics),
             compileMemoLevel := 1,
             rebuildCount := c.rebuildCount + 1 }
  else c

/-- The source `Camera.prototype.setOptics`: store the normalised optics and reset the
compilation memos (or throw without modifying the node). -/
def setOptics (c : Camera) (o : Option OpticsParams) : Except MorphErr Camera :=
  (setOpticsAttr o).map fun attr => _resetCompilationMemos { c with optics := attr }

/-- The source `Camera.prototype._init`: `setOptics(params.optics)` on a fresh node. -/
def initCamera (params : Option OpticsParams) : Except MorphErr Camera :=
  (setOpticsAttr params).map fun attr => _resetCompilationMemos ⟨attr, none, 0, 0⟩

/-- The source `Camera.prototype.getMatrix`: rebuild if the memo level is 0, then
return a copy of `_transform.matrix` (`none` = TypeError on an undefined
`_transform`, unreachable after construction). -/
def getMatrix (c : Camera) : Option Matrix × Camera :=
  let c' := if c.compileMemoLevel = 0 then _rebuild c else c
  (c'.transform.map Transform.matrix, c')

/-! ### Reference-level view of the getters (claim C10)

`getOptics` builds a fresh object and copies the optics fields into it
(`for (var key in this.attr.optics) optics[key] = ...`); `getMatrix`
returns `this._transform.matrix.slice(0)`, a fresh array with the same
content.  To state freshness, object identity is made explicit: a heap of
optics records and a heap of matrix arrays, addressed by index, with the
camera holding addresses.  Mutating a returned address must leave the
camera's own cells and fields untouched. -/

structure CameraHeap where
  store : List OpticsAttr
  mstore : List Matrix

structure CameraRef where
  opticsAddr : Nat
  transformMatrixAddr : Option Nat
  compileMemoLevel : Nat
  deriving DecidableEq, Repr

/-- The source `Camera.prototype.getOptics`: allocate a fresh record, copy every own
property of `this.attr.optics` into it (equal content), return its
address.  The camera itself is untouched. -/
def getOpticsH (c : CameraRef) (h : CameraHeap) : Nat × CameraHeap :=
  (h.store.length,
   { h with store := h.store ++ [(h.store.getD c.opticsAddr default)] })

/-- The source `Camera.prototype.getMatrix` at the reference level: a memo level of 0
first rebuilds, storing a newly built matrix cell as
`_transform.matrix`; then `slice(0)` allocates a fresh copy of that cell
and its address is returned.  `none` is the TypeError on an undefined
`_transform`. -/
def getMatrixH (c : CameraRef) (h : CameraHeap) :
    Option (Nat × CameraRef × CameraHeap) :=
  let rebuilt :=
    if c.compileMemoLevel = 0 then
      ({ c with transformMatrixAddr := some h.mstore.length,
                compileMemoLevel := 1 },
       { h with mstore := h.mstore
           ++ [(rebuildTransform (h.store.getD c.opticsAddr default)).matrix] })
    else (c, h)
  match rebuilt.1.transformMatrixAddr with
  | none => none
  | some a =>
      some (rebuilt.2.mstore.length, rebuilt.1,
        { rebuilt.2 with
            mstore := rebuilt.2.mstore ++ [rebuilt.2.mstore.getD a default] })

/-- Heap mutation of an optics record (what a caller mutating the returned
object does). -/
def setStore (h : CameraHeap) (a : Nat) (v : OpticsAttr) : CameraHeap :=
  { h with store := h.store.set a v }

/-- Heap mutation of a matrix array. -/
def setMStore (h : CameraHeap) (a : Nat) (v : Matrix) : CameraHeap :=
  { h with mstore := h.mstore.set a v }

end SceneJS

namespace SceneJS

/-! ## Theorems

### Event bus ordering (claim C3) -/

theorem mem_spliceInsert {α : Type} {h x : Handler α} {l : List (Handler α)} :
    x ∈ spliceInsert h l ↔ x = h ∨ x ∈ l := by
  induction l with
  | nil => simp [spliceInsert]
  | cons b bs ih =>
      by_cases hc : h.priority < b.priority
      · simp [spliceInsert, hc]
      · simp [spliceInsert, hc, ih]; tauto

theorem length_spliceInsert {α : Type} (h : Handler α) (l : List (Handler α)) :
    (spliceInsert h l).length = l.length + 1 := by
  induction l with
  | nil => rfl
  | cons b bs ih =>
      by_cases hc : h.priority < b.priority
      · simp [spliceInsert, hc]
      · simp [spliceInsert, hc, ih]

theorem pairwise_spliceInsert {α : Type} {f : α → Nat} {h : Handler α}
    {l : List (Handler α)}
    (hl : l.Pairwise (handlerOrd f)) (hfresh : ∀ x ∈ l, f x.command < f h.command) :
    (spliceInsert h l).Pairwise (handlerOrd f) := by
  induction l with
  | nil => simp [spliceInsert]
  | cons b bs ih =>
      rw [List.pairwise_cons] at hl
      by_cases hc : h.priority < b.priority
      · rw [spliceInsert, if_pos hc]
        refine List.pairwise_cons.2 ⟨?_, List.pairwise_cons.2 ⟨hl.1, hl.2⟩⟩
        intro y hy
        rcases List.mem_cons.1 hy with rfl | hy
        · exact Or.inl hc
        · rcases hl.1 y hy with hlt | ⟨heq, _⟩
          · exact Or.inl (lt_trans hc hlt)
          · exact Or.inl (heq ▸ hc)
      · rw [spliceInsert, if_neg hc]
        refine List.pairwise_cons.2 ⟨?_, ih hl.2 (fun x hx => hfresh x (List.mem_cons_of_mem _ hx))⟩
        intro y hy
        rcases mem_spliceInsert.1 hy with rfl | hy
        · rcases lt_or_eq_of_le (not_lt.1 hc) with hlt | heq
          · exact Or.inl hlt
          · exact Or.inr ⟨heq, hfresh b (List.mem_cons_self b bs)⟩
        · exact hl.1 y hy

theorem spliceInsert_perm {α : Type} (h : Handler α) (l : List (Handler α)) :
    (spliceInsert h l).Perm (h :: l) := by
  induction l with
  | nil => exact List.Perm.refl _
  | cons b bs ih =>
      by_cases hc : h.priority < b.priority
      · rw [spliceInsert, if_pos hc]
      · rw [spliceInsert, if_neg hc]
        exact (ih.cons b).trans (List.Perm.swap h b bs)

theorem addListener_self {α : Type} (ev : Registry α) (type : Nat) (c : α)
    (p : Option Int) :
    addListener ev type c p type
      = spliceInsert ⟨c, p.getD (ev type).length⟩ (ev type) := by
  simp [addListener]

theorem registerFold_aux {α : Type} (type : Nat) (cmdOf : Nat → α) (f : α → Nat)
    (htag : ∀ k, f (cmdOf k) = k) (regs : List (Option Int)) :
    ∀ (k : Nat) (ev : Registry α),
      (ev type).Pairwise (handlerOrd f) →
      (∀ x ∈ ev type, ∃ j, j < k ∧ x.command = cmdOf j) →
      (((regs.enumFrom k).foldl
          (fun e pk => addListener e type (cmdOf pk.1) pk.2) ev) type).Pairwise (handlerOrd f) ∧
      (∀ x ∈ ((regs.enumFrom k).foldl
          (fun e pk => addListener e type (cmdOf pk.1) pk.2) ev) type,
        ∃ j, j < k + regs.length ∧ x.command = cmdOf j) ∧
      ((((regs.enumFrom k).foldl
          (fun e pk => addListener e type (cmdOf pk.1) pk.2) ev) type).map
            (fun x => f x.command)).Perm
        ((ev type).map (fun x => f x.command) ++ List.range' k regs.length) := by
  induction regs with
  | nil =>
      intro k ev h1 h3
      refine ⟨h1, ?_, by simp⟩
      intro x hx
      rcases h3 x hx with ⟨j, hj, hcmd⟩
      exact ⟨j, lt_of_lt_of_le hj (Nat.le_add_right _ _), hcmd⟩
  | cons p ps ih =>
      intro k ev h1 h3
      have hstep : (List.enumFrom k (p :: ps)).foldl
          (fun e pk => addListener e type (cmdOf pk.1) pk.2) ev
          = (List.enumFrom (k + 1) ps).foldl
              (fun e pk => addListener e type (cmdOf pk.1) pk.2)
              (addListener ev type (cmdOf k) p) := rfl
      set ev' := addListener ev type (cmdOf k) p with hev'
      have hev't : ev' type
          = spliceInsert ⟨cmdOf k, p.getD (ev type).length⟩ (ev type) :=
        addListener_self ev type (cmdOf k) p
      have hfresh : ∀ x ∈ ev type,
          f x.command < f (Handler.command ⟨cmdOf k, p.getD (ev type).length⟩) := by
        intro x hx
        rcases h3 x hx with ⟨j, hj, hcmd⟩
        simpa [hcmd, htag] using hj
      have h1' : (ev' type).Pairwise (handlerOrd f) := by
        rw [hev't]; exact pairwise_spliceInsert h1 hfresh
      have h3' : ∀ x ∈ ev' type, ∃ j, j < k + 1 ∧ x.command = cmdOf j := by
        intro x hx
        rw [hev't] at hx
        rcases mem_spliceInsert.1 hx with rfl | hx
        · exact ⟨k, Nat.lt_succ_self k, rfl⟩
        · rcases h3 x hx with ⟨j, hj, hcmd⟩
          exact ⟨j, Nat.lt_succ_of_lt hj, hcmd⟩
      rcases ih (k + 1) ev' h1' h3' with ⟨ih1, ih2, ih3⟩
      rw [hstep]
      refine ⟨ih1, ?_, ?_⟩
      · intro x hx
        rcases ih2 x hx with ⟨j, hj, hcmd⟩
        exact ⟨j, by simp only [List.length_cons]; omega, hcmd⟩
      · have hperm' : ((ev' type).map (fun x => f x.command)).Perm
            (f (cmdOf k) :: (ev type).map (fun x => f x.command)) := by
          rw [hev't]
          simpa using (spliceInsert_perm ⟨cmdOf k, p.getD (ev type).length⟩ (ev type)).map
            (fun x => f x.command)
        have hrange : List.range' k (ps.length + 1) = k :: List.range' (k + 1) ps.length :=
          List.range'_succ k ps.length 1
        have step1 : (((ev' type).map (fun x => f x.command))
              ++ List.range' (k + 1) ps.length).Perm
            (f (cmdOf k) :: ((ev type).map (fun x => f x.command)
              ++ List.range' (k + 1) ps.length)) :=
          hperm'.append_right _
        have step2 : ((ev type).map (fun x => f x.command)
              ++ (k :: List.range' (k + 1) ps.length)).Perm
            (k :: ((ev type).map (fun x => f x.command)
              ++ List.range' (k + 1) ps.length)) :=
          List.perm_middle
        rw [List.length_cons, hrange]
        rw [htag k] at step1
        exact (ih3.trans step1).trans step2.symm

theorem fireLoop_pure (type : Nat) (E : Registry (List Action))
    (hE : ∀ h ∈ E type, isLogCmd h.command) :
    ∀ (fuel i : Nat) (log : List Nat), (E type).length - i ≤ fuel →
      fireLoop type fuel i ⟨E, log⟩
        = ⟨E, log ++ ((E type).drop i).map (fun h => tagOf h.command)⟩ := by
  intro fuel
  induction fuel with
  | zero =>
      intro i log hfuel
      have hlen : (E type).length ≤ i := by omega
      rw [List.drop_eq_nil_of_le hlen]
      simp [fireLoop]
  | succ fuel ih =>
      intro i log hfuel
      rw [fireLoop]
      by_cases hlt : i < (E type).length
      · rw [dif_pos hlt]
        rcases hE _ (List.get_mem (E type) i hlt) with ⟨t, ht⟩
        have hrun : runActions ⟨E, log⟩ ((E type).get ⟨i, hlt⟩).command
            = ⟨E, log ++ [t]⟩ := by
          rw [ht]; rfl
        rw [hrun, ih (i + 1) (log ++ [t]) (by omega)]
        rw [List.drop_eq_getElem_cons hlt, List.map_cons]
        show _ = ⟨E, log ++ (tagOf ((E type).get ⟨i, hlt⟩).command :: _)⟩
        rw [ht]
        simp [tagOf]
      · rw [dif_neg hlt]
        rw [List.drop_eq_nil_of_le (by omega)]
        simp

/-- C3: for every sequence of `addListener` calls on the same event kind
(each optionally carrying an explicit priority, the default being the list
length at registration time), `fireEvent` invokes the registered callbacks
in non-decreasing priority order, callbacks of equal priority being invoked
in registration order: the handler list is pairwise ordered by
priority-then-registration-index, the dispatch log is exactly that list's
tags in list order, and every registration is dispatched exactly once. -/
theorem c3_fireEvent_priority_order (type : Nat) (regs : List (Option Int)) :
    ((registerFold type (fun k => [Action.log k]) regs) type).Pairwise (handlerOrd tagOf) ∧
    (fireEvent (((registerFold type (fun k => [Action.log k]) regs) type).length) type
        ⟨registerFold type (fun k => [Action.log k]) regs, []⟩).log
      = ((registerFold type (fun k => [Action.log k]) regs) type).map
          (fun h => tagOf h.command) ∧
    (((registerFold type (fun k => [Action.log k]) regs) type).map
        (fun h => tagOf h.command)).Perm (List.range regs.length) := by
  have htag : ∀ k : Nat, tagOf [Action.log k] = k := fun _ => rfl
  have haux := registerFold_aux type (fun k => [Action.log k]) tagOf htag regs 0
      (emptyRegistry _) (by simp [emptyRegistry]) (by simp [emptyRegistry])
  rcases haux with ⟨h1, h2, h3⟩
  have hlogcmd : ∀ h ∈ (registerFold type (fun k => [Action.log k]) regs) type,
      isLogCmd h.command := by
    intro h hh
    rcases h2 h hh with ⟨j, _, hcmd⟩
    exact ⟨j, hcmd⟩
  refine ⟨h1, ?_, ?_⟩
  · have := fireLoop_pure type (registerFold type (fun k => [Action.log k]) regs)
      hlogcmd (((registerFold type (fun k => [Action.log k]) regs) type).length) 0 []
      (by omega)
    rw [fireEvent, this]
    simp
  · have : (emptyRegistry (List Action)) type = [] := rfl
    rw [List.range_eq_range' regs.length]
    simpa [this] using h3

/-- C5 counterexample: the listener registered for kind 5 while `fireEvent`
for kind 5 is already dispatching is itself invoked within that same
dispatch (its tag 1 appears in the dispatch log), refuting the claim that
such a listener is never invoked within the in-progress dispatch. -/
theorem c5_counterexample :
    1 ∈ (fireEvent 3 5 ⟨midDispatchRegistry 0 1, []⟩).log := by decide

/-- C5 amended: `fireEvent` iterates the live listener list, whose length
is re-read each step and which `addListener` mutates in place, so a
listener registered for the same kind by a callback running inside the
dispatch at a position after the current index (here: default priority,
appended at the end) IS invoked within that already-in-progress dispatch,
immediately after the listeners registered before the dispatch began. -/
theorem c5_mid_dispatch_listener_runs (a b : Nat) :
    (fireEvent 3 5 ⟨midDispatchRegistry a b, []⟩).log = [a, b] := rfl

/-! ### Render-phase bracketing (claim C1) -/

theorem scanDown_some_spec (keys : List ℚ) (f : ℚ) :
    ∀ m i, scanDown keys f m = some i →
      i ≤ m ∧ keys.getD i 0 < f ∧ ∀ j, i < j → j ≤ m → ¬ keys.getD j 0 < f := by
  intro m
  induction m with
  | zero =>
      intro i h
      rw [scanDown] at h
      by_cases hc : keys.getD 0 0 < f
      · rw [if_pos hc] at h
        cases h
        exact ⟨le_refl 0, hc, fun j hj hj' => absurd (lt_of_lt_of_le hj hj') (lt_irrefl 0)⟩
      · rw [if_neg hc] at h
        cases h
  | succ m ih =>
      intro i h
      rw [scanDown] at h
      by_cases hc : keys.getD (m + 1) 0 < f
      · rw [if_pos hc] at h
        cases h
        refine ⟨le_refl _, hc, fun j hj hj' => ?_⟩
        omega
      · rw [if_neg hc] at h
        rcases ih i h with ⟨h1, h2, h3⟩
        refine ⟨Nat.le_succ_of_le h1, h2, fun j hj hj' => ?_⟩
        rcases Nat.lt_succ_iff_lt_or_eq.1 (Nat.lt_succ_of_le hj') with hlt | rfl
        · exact h3 j hj (by omega)
        · exact hc

theorem scanDown_isSome (keys : List ℚ) (f : ℚ) (h0 : keys.getD 0 0 < f) :
    ∀ m, ∃ i, scanDown keys f m = some i := by
  intro m
  induction m with
  | zero => exact ⟨0, by rw [scanDown, if_pos h0]⟩
  | succ m ih =>
      by_cases hc : keys.getD (m + 1) 0 < f
      · exact ⟨m + 1, by rw [scanDown, if_pos hc]⟩
      · rcases ih with ⟨i, hi⟩
        exact ⟨i, by rw [scanDown, if_neg hc]; exact hi⟩

/-- C1 amended: for a valid (non-decreasing, length ≥ 2) key sequence and
any factor, the render-phase selection picks `(0,1)` at or below the first
key; `(len-2, len-1)` at or above the last key PROVIDED the factor is
strictly above the first key (the first clause is checked first and wins
when both apply, e.g. when all keys are equal); and otherwise the pair
`(i, i+1)` where `i` is the largest index whose key is strictly below the
factor, satisfying `K[i] < f ≤ K[i+1]` with the normalized factor in
`[0,1]`. -/
theorem c1_bracketing (keys : List ℚ) (f : ℚ)
    (_hsorted : List.Pairwise (· ≤ ·) keys) (hlen : 2 ≤ keys.length) :
    (f ≤ keys.getD 0 0 → bracketKeys keys f = (0, 1, keys.getD 0 0)) ∧
    (keys.getD 0 0 < f → keys.getD (keys.length - 1) 0 ≤ f →
      bracketKeys keys f
        = (keys.length - 2, keys.length - 1, keys.getD (keys.length - 1) 0)) ∧
    (keys.getD 0 0 < f → f < keys.getD (keys.length - 1) 0 →
      ∃ i, bracketKeys keys f = (i, i + 1, f) ∧ i + 1 ≤ keys.length - 1 ∧
        keys.getD i 0 < f ∧ f ≤ keys.getD (i + 1) 0 ∧
        (∀ j, j < keys.length → keys.getD j 0 < f → j ≤ i) ∧
        0 ≤ normalizedFactor keys f ∧ normalizedFactor keys f ≤ 1) := by
  refine ⟨fun hlow => ?_, fun hlow hhigh => ?_, fun hlow hhigh => ?_⟩
  · rw [bracketKeys, if_pos hlow]
  · rw [bracketKeys, if_neg (not_le.2 hlow), if_pos hhigh]
  · have hb : bracketKeys keys f
        = match scanDown keys f (keys.length - 1) with
          | some i => (i, i + 1, f)
          | none => (0, 0, f) := by
      rw [bracketKeys, if_neg (not_le.2 hlow), if_neg (not_le.2 hhigh)]
    rcases scanDown_isSome keys f hlow (keys.length - 1) with ⟨i, hscan⟩
    rw [hscan] at hb
    rcases scanDown_some_spec keys f (keys.length - 1) i hscan with ⟨hle, hki, hmax⟩
    have hne : i ≠ keys.length - 1 := by
      intro heq
      rw [heq] at hki
      exact absurd (lt_trans hki hhigh) (lt_irrefl _)
    have hi1 : i + 1 ≤ keys.length - 1 := by omega
    have hfk : f ≤ keys.getD (i + 1) 0 :=
      not_lt.1 (hmax (i + 1) (Nat.lt_succ_self i) hi1)
    have hnorm : normalizedFactor keys f
        = (f - keys.getD i 0) / (keys.getD (i + 1) 0 - keys.getD i 0) := by
      rw [normalizedFactor, hb]
    have hden : 0 < keys.getD (i + 1) 0 - keys.getD i 0 :=
      sub_pos.2 (lt_of_lt_of_le hki hfk)
    have hnum : 0 < f - keys.getD i 0 := sub_pos.2 hki
    refine ⟨i, hb, hi1, hki, hfk, ?_, ?_, ?_⟩
    · intro j hj hjf
      by_contra hij
      exact absurd hjf (hmax j (by omega) (by omega))
    · rw [hnorm]
      exact le_of_lt (div_pos hnum hden)
    · rw [hnorm, div_le_one hden]
      have := sub_le_sub_right hfk (keys.getD i 0)
      linarith

/-- C1 counterexample: with the valid key sequence `[0, 0, 0]` (three
equal keys, non-decreasing, length ≥ 2) and factor `0`, the claim's second
clause demands the bracketing pair `(len-2, len-1) = (1, 2)` because
`f ≥ K[last]`, but the source checks `f <= keys[0]` first and selects
`(0, 1)`. -/
theorem c1_counterexample :
    (List.Pairwise (· ≤ ·) [(0 : ℚ), 0, 0] ∧ 2 ≤ [(0 : ℚ), 0, 0].length) ∧
      ¬ c1ClaimAt [(0 : ℚ), 0, 0] 0 := by
  refine ⟨⟨by decide, by decide⟩, fun h => ?_⟩
  have h2 := h.2.1 (by norm_num)
  have hb : bracketKeys [(0 : ℚ), 0, 0] 0 = (0, 1, 0) := by decide
  rw [hb] at h2
  exact absurd h2.1 (by decide)

/-- C1 witness: keys `[0, 1/2, 1]`, factor `1/5` — the interior case
selects the pair `(0, 1)` with `K[0] = 0 < 1 ≤ 1/2 = K[1]` and
normalized factor `2/5 ∈ [0,1]`. -/
theorem c1_bracketing_witness :
    (List.Pairwise (· ≤ ·) [(0 : ℚ), 2, 4] ∧ 2 ≤ [(0 : ℚ), 2, 4].length) ∧
    (∃ i, bracketKeys [(0 : ℚ), 2, 4] 1 = (i, i + 1, 1) ∧
      i + 1 ≤ [(0 : ℚ), 2, 4].length - 1 ∧
      [(0 : ℚ), 2, 4].getD i 0 < 1 ∧
      1 ≤ [(0 : ℚ), 2, 4].getD (i + 1) 0 ∧
      (∀ j, j < [(0 : ℚ), 2, 4].length →
        [(0 : ℚ), 2, 4].getD j 0 < 1 → j ≤ i) ∧
      0 ≤ normalizedFactor [(0 : ℚ), 2, 4] 1 ∧
      normalizedFactor [(0 : ℚ), 2, 4] 1 ≤ 1) :=
  ⟨⟨by decide, by decide⟩,
   (c1_bracketing [(0 : ℚ), 2, 4] 1 (by decide) (by decide)).2.2
     (by norm_num) (by norm_num)⟩

/-! ### Transactional allocation (claim C2) -/

theorem foldl_destroyBuf_live :
    ∀ (ids : List Nat) (s : AllocState) (base tail : List Nat),
      s.live = base ++ ids ++ tail → (∀ x ∈ ids, x ∉ base) →
      (ids.foldl destroyBuf s).live = base ++ tail := by
  intro ids
  induction ids with
  | nil => intro s base tail h _; simpa using h
  | cons a rest ih =>
      intro s base tail h hdisj
      rw [List.foldl_cons]
      apply ih (destroyBuf s a) base tail
      · show s.live.erase a = base ++ rest ++ tail
        rw [h, List.append_assoc, List.erase_append_right _ (hdisj a (List.mem_cons_self a rest)),
          List.cons_append, List.erase_cons_head, List.append_assoc]
      · exact fun x hx => hdisj x (List.mem_cons_of_mem _ hx)

theorem destroyTargets_live :
    ∀ (mts : List MTarget) (s : AllocState) (base : List Nat),
      s.live = base ++ (mts.map MTarget.bufs).flatten →
      (∀ x ∈ (mts.map MTarget.bufs).flatten, x ∉ base) →
      (destroyTargets s mts).live = base := by
  intro mts
  induction mts with
  | nil => intro s base h _; simpa [destroyTargets] using h
  | cons t rest ih =>
      intro s base h hdisj
      rw [List.map_cons, List.flatten_cons] at h hdisj
      show (List.foldl destroyTarget (destroyTarget s t) rest).live = base
      have hone : (destroyTarget s t).live = base ++ (rest.map MTarget.bufs).flatten := by
        apply foldl_destroyBuf_live t.bufs s base ((rest.map MTarget.bufs).flatten)
        · rw [h, List.append_assoc]
        · exact fun x hx => hdisj x (List.mem_append_left _ hx)
      exact ih (destroyTarget s t) base hone
        (fun x hx => hdisj x (List.mem_append_right _ hx))

theorem chanAlloc_spec (s : AllocState) (chan : Option (List ℚ)) :
    (chanAlloc s chan).2.1.live = s.live ++ (chanAlloc s chan).1.toList ∧
    s.nextId ≤ (chanAlloc s chan).2.1.nextId ∧
    ∀ x ∈ (chanAlloc s chan).1.toList,
      s.nextId ≤ x ∧ x < (chanAlloc s chan).2.1.nextId := by
  match chan with
  | none => simp [chanAlloc]
  | some l =>
      by_cases hl : 0 < l.length
      · by_cases hb : s.budget = 0
        · simp [chanAlloc, hl, allocBuf, hb]
        · simp [chanAlloc, hl, allocBuf, hb]
      · simp [chanAlloc, hl]

theorem allocTarget_spec (s : AllocState) (t : DataTarget) :
    (allocTarget s t).2.1.live = s.live ++ (allocTarget s t).1.bufs ∧
    s.nextId ≤ (allocTarget s t).2.1.nextId ∧
    ∀ x ∈ (allocTarget s t).1.bufs,
      s.nextId ≤ x ∧ x < (allocTarget s t).2.1.nextId := by
  rcases h1 : chanAlloc s t.positions with ⟨v, s1, f1⟩
  have c1 := chanAlloc_spec s t.positions; rw [h1] at c1; dsimp only at c1
  cases f1 with
  | true =>
      simp only [allocTarget, h1, MTarget.bufs]
      simpa using c1
  | false =>
      rcases h2 : chanAlloc s1 t.normals with ⟨n, s2, f2⟩
      have c2 := chanAlloc_spec s1 t.normals; rw [h2] at c2; dsimp only at c2
      cases f2 with
      | true =>
          simp only [allocTarget, h1, h2, MTarget.bufs]
          refine ⟨?_, ?_, ?_⟩
          · simp [c2.1, c1.1]
          · exact le_trans c1.2.1 c2.2.1
          · intro x hx
            simp only [Option.toList_none, List.append_nil, List.mem_append] at hx
            rcases hx with hx | hx
            · rcases c1.2.2 x hx with ⟨hlo, hhi⟩
              exact ⟨hlo, lt_of_lt_of_le hhi c2.2.1⟩
            · rcases c2.2.2 x hx with ⟨hlo, hhi⟩
              exact ⟨le_trans c1.2.1 hlo, hhi⟩
      | false =>
          rcases h3 : chanAlloc s2 t.uv with ⟨u, s3, f3⟩
          have c3 := chanAlloc_spec s2 t.uv; rw [h3] at c3; dsimp only at c3
          cases f3 with
          | true =>
              simp only [allocTarget, h1, h2, h3, MTarget.bufs]
              refine ⟨?_, ?_, ?_⟩
              · simp [c3.1, c2.1, c1.1]
              · exact le_trans c1.2.1 (le_trans c2.2.1 c3.2.1)
              · intro x hx
                simp only [Option.toList_none, List.append_nil, List.mem_append] at hx
                rcases hx with (hx | hx) | hx
                · rcases c1.2.2 x hx with ⟨hlo, hhi⟩
                  exact ⟨hlo, lt_of_lt_of_le hhi (le_trans c2.2.1 c3.2.1)⟩
                · rcases c2.2.2 x hx with ⟨hlo, hhi⟩
                  exact ⟨le_trans c1.2.1 hlo, lt_of_lt_of_le hhi c3.2.1⟩
                · rcases c3.2.2 x hx with ⟨hlo, hhi⟩
                  exact ⟨le_trans c1.2.1 (le_trans c2.2.1 hlo), hhi⟩
          | false =>
              rcases h4 : chanAlloc s3 t.uv2 with ⟨u2, s4, f4⟩
              have c4 := chanAlloc_spec s3 t.uv2; rw [h4] at c4; dsimp only at c4
              simp only [allocTarget, h1, h2, h3, h4, MTarget.bufs]
              refine ⟨?_, ?_, ?_⟩
              · simp [c4.1, c3.1, c2.1, c1.1]
              · exact le_trans c1.2.1 (le_trans c2.2.1 (le_trans c3.2.1 c4.2.1))
              · intro x hx
                simp only [List.mem_append] at hx
                rcases hx with ((hx | hx) | hx) | hx
                · rcases c1.2.2 x hx with ⟨hlo, hhi⟩
                  exact ⟨hlo, lt_of_lt_of_le hhi
                    (le_trans c2.2.1 (le_trans c3.2.1 c4.2.1))⟩
                · rcases c2.2.2 x hx with ⟨hlo, hhi⟩
                  exact ⟨le_trans c1.2.1 hlo,
                    lt_of_lt_of_le hhi (le_trans c3.2.1 c4.2.1)⟩
                · rcases c3.2.2 x hx with ⟨hlo, hhi⟩
                  exact ⟨le_trans c1.2.1 (le_trans c2.2.1 hlo),
                    lt_of_lt_of_le hhi c4.2.1⟩
                · rcases c4.2.2 x hx with ⟨hlo, hhi⟩
                  exact ⟨le_trans c1.2.1 (le_trans c2.2.1 (le_trans c3.2.1 hlo)), hhi⟩

theorem allocTargets_spec :
    ∀ (ts : List DataTarget) (s : AllocState),
      (allocTargets s ts).2.1.live
        = s.live ++ ((allocTargets s ts).1.map MTarget.bufs).flatten ∧
      s.nextId ≤ (allocTargets s ts).2.1.nextId ∧
      ∀ x ∈ ((allocTargets s ts).1.map MTarget.bufs).flatten, s.nextId ≤ x := by
  intro ts
  induction ts with
  | nil => intro s; simp [allocTargets]
  | cons t rest ih =>
      intro s
      rcases ht : allocTarget s t with ⟨mt, s', f⟩
      have ct := allocTarget_spec s t; rw [ht] at ct; dsimp only at ct
      cases f with
      | true =>
          simp only [allocTargets, ht]
          refine ⟨by simpa using ct.1, ct.2.1, ?_⟩
          intro x hx
          exact (ct.2.2 x (by simpa using hx)).1
      | false =>
          rcases hrest : allocTargets s' rest with ⟨mts, s'', f'⟩
          have crest := ih s'; rw [hrest] at crest; dsimp only at crest
          simp only [allocTargets, ht, hrest]
          refine ⟨?_, le_trans ct.2.1 crest.2.1, ?_⟩
          · simp [crest.1, ct.1]
          · intro x hx
            have hx' : x ∈ mt.bufs ++ (mts.map MTarget.bufs).flatten := by
              simpa using hx
            rcases List.mem_append.1 hx' with hx2 | hx2
            · exact (ct.2.2 x hx2).1
            · exact le_trans ct.2.1 (crest.2.2 x hx2)

/-- C2: when `_createMorph` with inline target data hits an allocation
failure partway through the targets, every buffer already allocated by the
call is destroyed before the error is re-raised (the live buffer set is
exactly what it was before the call) and the resource is never written
into the surface's cache (the cache is returned unchanged). -/
theorem c2_createMorph_transactional (canvas : Canvas) (resource : String)
    (data : MorphData) (cache : MorphMap) (s : AllocState)
    (hwf : ∀ x ∈ s.live, x < s.nextId) (e : MorphErr)
    (herr : (_createMorph canvas resource data cache s).1 = .error e) :
    (_createMorph canvas resource data cache s).2.2.live = s.live ∧
    (_createMorph canvas resource data cache s).2.1 = cache := by
  rcases hat : allocTargets s data.targets with ⟨mts, s', failed⟩
  have spec := allocTargets_spec data.targets s; rw [hat] at spec; dsimp only at spec
  cases failed with
  | false => simp [_createMorph, hat] at herr
  | true =>
      simp only [_createMorph, hat]
      refine ⟨?_, trivial⟩
      apply destroyTargets_live mts s' s.live spec.1
      intro x hx hmem
      exact absurd (hwf x hmem) (not_lt.2 (spec.2.2 x hx))

/-- C2 witness: two targets with position data and an allocation budget of
one — the first target's vertex buffer allocates (id 0), the second
target's allocation throws; afterwards the live buffer set is empty again
and the cache is still empty. -/
theorem c2_createMorph_transactional_witness :
    (∀ x ∈ ([] : List Nat), x < 0) ∧
    ((_createMorph ⟨"c"⟩ "m"
        ⟨[0, 1], [⟨some [1, 2, 3], none, none, none⟩,
                  ⟨some [4, 5, 6], none, none, none⟩]⟩
        [] ⟨[], 0, 1⟩).1 = .error .allocFailed) ∧
    (_createMorph ⟨"c"⟩ "m"
        ⟨[0, 1], [⟨some [1, 2, 3], none, none, none⟩,
                  ⟨some [4, 5, 6], none, none, none⟩]⟩
        [] ⟨[], 0, 1⟩).2.2.live = [] ∧
    (_createMorph ⟨"c"⟩ "m"
        ⟨[0, 1], [⟨some [1, 2, 3], none, none, none⟩,
                  ⟨some [4, 5, 6], none, none, none⟩]⟩
        [] ⟨[], 0, 1⟩).2.1 = [] :=
  ⟨fun x hx => absurd hx (List.not_mem_nil x),
   rfl,
   (c2_createMorph_transactional ⟨"c"⟩ "m"
      ⟨[0, 1], [⟨some [1, 2, 3], none, none, none⟩,
                ⟨some [4, 5, 6], none, none, none⟩]⟩ [] ⟨[], 0, 1⟩
      (fun x hx => absurd hx (List.not_mem_nil x)) .allocFailed rfl).1,
   (c2_createMorph_transactional ⟨"c"⟩ "m"
      ⟨[0, 1], [⟨some [1, 2, 3], none, none, none⟩,
                ⟨some [4, 5, 6], none, none, none⟩]⟩ [] ⟨[], 0, 1⟩
      (fun x hx => absurd hx (List.not_mem_nil x)) .allocFailed rfl).2⟩

/-! ### Construction-time validation (claim C7) -/

/-- C7: `_setMorph` raises the configuration error exactly when the target
list has fewer than two entries or the key count differs from the target
count; on every valid input it succeeds, storing the keys and the
default-filled targets.  The function touches no resource cache (none
appears in its signature), so a failed construction registers nothing. -/
theorem c7_setMorph_validation (params : SetMorphParams) :
    ((jsOrList params.targets []).length < 2 ∨
        (jsOrList params.keys []).length ≠ (jsOrList params.targets []).length →
      _setMorph params = .error .illegalNodeConfig) ∧
    (2 ≤ (jsOrList params.targets []).length →
      (jsOrList params.keys []).length = (jsOrList params.targets []).length →
      _setMorph params = .ok (jsOrList params.keys [],
        fillTargets (jsOrList params.targets []))) := by
  constructor
  · intro hbad
    by_cases h2 : (jsOrList params.targets []).length < 2
    · simp [_setMorph, h2]
    · rcases hbad with hbad | hbad
      · exact absurd hbad h2
      · simp [_setMorph, h2, hbad]
  · intro h2 hk
    simp [_setMorph, not_lt.2 h2, hk]

/-- C7 witness: a one-target parameter set is rejected with the
configuration error; two targets with two keys are accepted. -/
theorem c7_setMorph_validation_witness :
    _setMorph ⟨some [⟨none, none, none, none⟩], none⟩
        = .error .illegalNodeConfig ∧
    _setMorph ⟨some [⟨some [1, 2, 3], none, none, none⟩,
                     ⟨none, some [4, 5, 6], none, none⟩], some [0, 1]⟩
        = .ok ([0, 1],
            fillTargets [⟨some [1, 2, 3], none, none, none⟩,
                         ⟨none, some [4, 5, 6], none, none⟩]) :=
  ⟨(c7_setMorph_validation ⟨some [⟨none, none, none, none⟩], none⟩).1
      (Or.inl (by decide)),
   (c7_setMorph_validation ⟨some [⟨some [1, 2, 3], none, none, none⟩,
                                  ⟨none, some [4, 5, 6], none, none⟩],
                            some [0, 1]⟩).2 (by decide) (by decide)⟩

/-! ### Association-list lemmas for the per-canvas caches -/

theorem alookup_aset_self {β : Type} (l : List (String × β)) (k : String) (v : β) :
    alookup (aset l k v) k = some v := by
  induction l with
  | nil => simp [aset, alookup]
  | cons p rest ih =>
      rcases p with ⟨k0, w⟩
      by_cases hk : k0 = k
      · simp [aset, hk, alookup]
      · simp [aset, hk, alookup, ih]

theorem mem_aset_self {β : Type} (l : List (String × β)) (k : String) (v : β) :
    (k, v) ∈ aset l k v := by
  induction l with
  | nil => simp [aset]
  | cons p rest ih =>
      rcases p with ⟨k0, w⟩
      by_cases hk : k0 = k
      · subst hk; simp [aset]
      · simp [aset, hk, ih]

theorem alookup_mem {β : Type} :
    ∀ {l : List (String × β)} {k : String} {v : β},
      alookup l k = some v → (k, v) ∈ l := by
  intro l
  induction l with
  | nil => intro k v h; simp [alookup] at h
  | cons p rest ih =>
      intro k v h
      rcases p with ⟨k0, w⟩
      by_cases hk : k0 = k
      · subst hk
        rw [alookup, if_pos rfl] at h
        cases h
        exact List.mem_cons_self _ _
      · rw [alookup, if_neg hk] at h
        exact List.mem_cons_of_mem _ (ih h)

/-! ### Destroy semantics (claim C4) -/

/-- C4 amended: `destroy(handle)` is a silent no-op when the surface's cache
is gone; it fails with resource-not-found when the cache is alive but the
entry is absent or null; on success it calls `destroy()` on every buffer of
every target PROVIDED the canvas element still exists (skipped otherwise,
the GL context being implicitly gone with the element), and it sets the
cache entry to JS null — the key itself is not deleted — so a second
destroy of the same handle fails with resource-not-found. -/
theorem c4_destroy_behavior (doc : List String) (h : MorphHandle)
    (cm : List (String × MorphMap)) (s : AllocState) :
    (alookup cm h.canvasId = none → destroyMorphGeometry doc h cm s = .ok (cm, s)) ∧
    (∀ morphs, alookup cm h.canvasId = some morphs →
      alookup morphs h.resource = none →
      destroyMorphGeometry doc h cm s = .error .morphNotFound) ∧
    (∀ morphs, alookup cm h.canvasId = some morphs →
      alookup morphs h.resource = some none →
      destroyMorphGeometry doc h cm s = .error .morphNotFound) ∧
    (∀ morphs m, alookup cm h.canvasId = some morphs →
      alookup morphs h.resource = some (some m) →
      m.canvas.canvasId = h.canvasId → m.resource = h.resource →
      destroyMorphGeometry doc h cm s
          = .ok (aset cm h.canvasId (aset morphs h.resource none),
                 if m.canvas.canvasId ∈ doc then destroyTargets s m.targets else s) ∧
      alookup (aset cm h.canvasId (aset morphs h.resource none)) h.canvasId
          = some (aset morphs h.resource none) ∧
      alookup (aset morphs h.resource none) h.resource = some none ∧
      (∀ base, s.live = base ++ (m.targets.map MTarget.bufs).flatten →
        (∀ x ∈ (m.targets.map MTarget.bufs).flatten, x ∉ base) →
        m.canvas.canvasId ∈ doc →
        (if m.canvas.canvasId ∈ doc then destroyTargets s m.targets else s).live
          = base) ∧
      ∀ s₂, destroyMorphGeometry doc h
          (aset cm h.canvasId (aset morphs h.resource none)) s₂
          = .error .morphNotFound) := by
  refine ⟨?_, ?_, ?_, ?_⟩
  · intro hc; simp [destroyMorphGeometry, hc]
  · intro morphs hc hr; simp [destroyMorphGeometry, hc, hr]
  · intro morphs hc hr; simp [destroyMorphGeometry, hc, hr]
  · intro morphs m hc hr hcid hres
    refine ⟨?_, alookup_aset_self _ _ _, alookup_aset_self _ _ _, ?_, ?_⟩
    · simp [destroyMorphGeometry, hc, hr, destroyMorphCore, hcid, hres]
    · intro base hb hdis hdoc
      rw [if_pos hdoc]
      exact destroyTargets_live m.targets s base hb hdis
    · intro s₂
      simp [destroyMorphGeometry, alookup_aset_self]

/-- C4 counterexample: a live cache entry whose canvas element is already
gone (`doc = []`).  `destroy` succeeds, but the buffer (id 7) of the
morph's only target is still allocated afterwards and the cache still
contains the resource key — bound to null, not removed — refuting that a
successful destroy "releases every allocated buffer of every target and
removes the cache entry". -/
theorem c4_counterexample :
    destroyMorphGeometry [] ⟨"c", "m"⟩
        [("c", [("m", some ⟨⟨"c"⟩, "m", [0, 1], [⟨some 7, none, none, none⟩], 0⟩)])]
        ⟨[7], 8, 0⟩
      = .ok ([("c", [("m", none)])], ⟨[7], 8, 0⟩) ∧
    alookup [("m", (none : Option Morph))] "m" = some none ∧
    7 ∈ ([7] : List Nat) :=
  ⟨rfl, rfl, by decide⟩

/-- C4 witness: canvas `"c"` tracked and its element alive, one morph with
one vertex buffer (id 3) and live set `[3]` — destroy succeeds, the buffer
set shrinks to `[]`, the entry is nulled, and a second destroy fails with
resource-not-found. -/
theorem c4_destroy_behavior_witness :
    destroyMorphGeometry ["c"] ⟨"c", "m"⟩
        [("c", [("m", some ⟨⟨"c"⟩, "m", [0, 1], [⟨some 3, none, none, none⟩], 0⟩)])]
        ⟨[3], 4, 0⟩
      = .ok ([("c", [("m", none)])],
             if "c" ∈ ["c"]
             then destroyTargets ⟨[3], 4, 0⟩ [⟨some 3, none, none, none⟩] else ⟨[3], 4, 0⟩) ∧
    (if "c" ∈ ["c"]
     then destroyTargets (⟨[3], 4, 0⟩ : AllocState) [⟨some 3, none, none, none⟩]
     else ⟨[3], 4, 0⟩).live = [] ∧
    destroyMorphGeometry ["c"] ⟨"c", "m"⟩ [("c", [("m", none)])] ⟨[], 4, 0⟩
      = .error .morphNotFound := by
  have hmain := (c4_destroy_behavior ["c"] ⟨"c", "m"⟩
      [("c", [("m", some ⟨⟨"c"⟩, "m", [0, 1], [⟨some 3, none, none, none⟩], 0⟩)])]
      ⟨[3], 4, 0⟩).2.2.2 [("m", some ⟨⟨"c"⟩, "m", [0, 1], [⟨some 3, none, none, none⟩], 0⟩)]
      ⟨⟨"c"⟩, "m", [0, 1], [⟨some 3, none, none, none⟩], 0⟩ rfl rfl rfl rfl
  exact ⟨hmain.1, hmain.2.2.2.1 [] rfl (by decide) (by decide), hmain.2.2.2.2 ⟨[], 4, 0⟩⟩

/-! ### Reset after destroy (claim C9) -/

theorem resetMorphs_hasNull (doc : List String) :
    ∀ (morphs : List (String × Option Morph)),
      (∃ r, (r, (none : Option Morph)) ∈ morphs) →
      ∀ st, resetMorphs doc morphs st = .error .typeError := by
  intro morphs
  induction morphs with
  | nil => rintro ⟨r, hr⟩; simp at hr
  | cons p rest ih =>
      rintro ⟨r, hr⟩ st
      rcases st with ⟨cm, s⟩
      rcases p with ⟨r0, mo⟩
      cases mo with
      | none => simp [resetMorphs, destroyMorph]
      | some m =>
          have hr' : (r, (none : Option Morph)) ∈ rest := by
            rcases List.mem_cons.1 hr with heq | h'
            · simp at heq
            · exact h'
          simp only [resetMorphs, destroyMorph]
          exact ih ⟨r, hr'⟩ _

theorem resetMorphs_noNull (doc : List String) :
    ∀ (morphs : List (String × Option Morph)),
      (∀ p ∈ morphs, p.2 ≠ (none : Option Morph)) →
      ∀ st, ∃ st', resetMorphs doc morphs st = .ok st' := by
  intro morphs
  induction morphs with
  | nil => intro _ st; rcases st with ⟨cm, s⟩; exact ⟨(cm, s), rfl⟩
  | cons p rest ih =>
      intro hnn st
      rcases st with ⟨cm, s⟩
      rcases p with ⟨r0, mo⟩
      cases mo with
      | none => exact absurd rfl (hnn (r0, none) (List.mem_cons_self _ _))
      | some m =>
          rcases ih (fun p hp => hnn p (List.mem_cons_of_mem _ hp))
              (destroyMorphCore doc m cm s) with ⟨st', hst'⟩
          exact ⟨st', by simp only [resetMorphs, destroyMorph]; exact hst'⟩

theorem resetCanvases_hasNull (doc : List String) :
    ∀ (cms : List (String × MorphMap)) (cid : String) (morphs : MorphMap)
      (r : String), (cid, morphs) ∈ cms → (r, (none : Option Morph)) ∈ morphs →
      ∀ st, resetCanvases doc cms st = .error .typeError := by
  intro cms
  induction cms with
  | nil => intro _ _ _ h; simp at h
  | cons p rest ih =>
      intro cid morphs r hmem hnull st
      rcases p with ⟨c0, ms0⟩
      by_cases h0 : ∃ q ∈ ms0, q.2 = (none : Option Morph)
      · rcases h0 with ⟨q, hq, hq2⟩
        have hq' : (q.1, (none : Option Morph)) ∈ ms0 := by
          rw [← hq2]; simpa using hq
        have herr := resetMorphs_hasNull doc ms0 ⟨q.1, hq'⟩ st
        simp [resetCanvases, herr]
      · push_neg at h0
        rcases resetMorphs_noNull doc ms0 h0 st with ⟨st', hok⟩
        have hrest : (cid, morphs) ∈ rest := by
          rcases List.mem_cons.1 hmem with heq | h'
          · exfalso
            injection heq with h1 h2
            rw [h2] at hnull
            exact h0 (r, none) hnull rfl
          · exact h'
        simp only [resetCanvases, hok]
        exact ih cid morphs r hrest hnull st'

/-- C9: after a successful destroy, the per-canvas cache still contains the
resource id as a key bound to JS null (not deleted); if the global RESET
then fires while that canvas is still tracked, its listener enumerates that
key and calls `destroyMorph` on the null entry, which dereferences
`morph.canvas` and throws a TypeError — reset after a destroy is not a
total operation. -/
theorem c9_reset_after_destroy (doc doc' : List String) (h : MorphHandle)
    (cm : List (String × MorphMap)) (s : AllocState) (morphs : MorphMap)
    (m : Morph)
    (hc : alookup cm h.canvasId = some morphs)
    (hr : alookup morphs h.resource = some (some m))
    (hcid : m.canvas.canvasId = h.canvasId) (hres : m.resource = h.resource) :
    destroyMorphGeometry doc h cm s
      = .ok (aset cm h.canvasId (aset morphs h.resource none),
             if m.canvas.canvasId ∈ doc then destroyTargets s m.targets else s) ∧
    alookup (aset morphs h.resource none) h.resource = some none ∧
    ∀ s', resetListener doc' (aset cm h.canvasId (aset morphs h.resource none)) s'
        = .error .typeError := by
  refine ⟨?_, alookup_aset_self _ _ _, ?_⟩
  · simp [destroyMorphGeometry, hc, hr, destroyMorphCore, hcid, hres]
  · intro s'
    have hmem : (h.canvasId, aset morphs h.resource none)
        ∈ aset cm h.canvasId (aset morphs h.resource none) :=
      alookup_mem (alookup_aset_self _ _ _)
    have hnull : (h.resource, (none : Option Morph)) ∈ aset morphs h.resource none :=
      mem_aset_self _ _ _
    have herr := resetCanvases_hasNull doc' _ h.canvasId _ h.resource hmem hnull
      (aset cm h.canvasId (aset morphs h.resource none), s')
    simp [resetListener, herr]

/-- C9 witness: destroy the only morph of canvas `"c"`, then fire RESET —
the destroy succeeds leaving the key bound to null, and the reset listener
throws the TypeError. -/
theorem c9_reset_after_destroy_witness :
    destroyMorphGeometry [] ⟨"c", "m"⟩
        [("c", [("m", some ⟨⟨"c"⟩, "m", [0, 1], [], 0⟩)])] ⟨[], 0, 0⟩
      = .ok ([("c", [("m", none)])], ⟨[], 0, 0⟩) ∧
    resetListener [] [("c", [("m", none)])] ⟨[], 0, 0⟩ = .error .typeError := by
  have hmain := c9_reset_after_destroy [] [] ⟨"c", "m"⟩
      [("c", [("m", some ⟨⟨"c"⟩, "m", [0, 1], [], 0⟩)])] ⟨[], 0, 0⟩
      [("m", some ⟨⟨"c"⟩, "m", [0, 1], [], 0⟩)] ⟨⟨"c"⟩, "m", [0, 1], [], 0⟩
      rfl rfl rfl rfl
  exact ⟨hmain.1, hmain.2.2 ⟨[], 0, 0⟩⟩

/-! ### Traversal stack discipline (claim C8) -/

/-- C8 counterexample: a pop at stack depth 0 is not detected:
`popMorphGeometry` returns normally (no error is reported) and leaves the
depth at -1, refuting the claim that an unmatched pop is reported as a
programming error rather than silently tolerated. -/
theorem c8_counterexample :
    popMorphGeometry emptyMorphStack
      = .ok { emptyMorphStack with stackLen := -1, dirty := true } := rfl

/-- C8 amended: `popMorphGeometry` unconditionally decrements the depth and
never reports an error (an unmatched pop at depth 0 silently leaves depth
-1); the depth is reset to 0 at the START of every compile pass by the
`SCENE_COMPILING` listener; after any operation sequence the depth is the
starting depth plus pushes minus pops, so it returns to 0 at the end of a
pass exactly when the pass's pushes and pops balance — which is enforced by
the nodes, not checked by the stack. -/
theorem c8_stack_discipline (st : MorphStackState)
    (cm : List (String × MorphMap)) (cid : String) (ops : List StackOp) :
    popMorphGeometry st
        = .ok { st with stackLen := st.stackLen - 1, dirty := true } ∧
    (sceneCompilingListener cm cid st).2.2.stackLen = 0 ∧
    (runStackOps st ops).stackLen = st.stackLen + stackDelta ops := by
  refine ⟨rfl, rfl, ?_⟩
  induction ops generalizing st with
  | nil => simp [runStackOps, stackDelta]
  | cons op rest ih =>
      cases op with
      | push id m =>
          show (runStackOps (pushFrame st id m) rest).stackLen = _
          rw [ih (pushFrame st id m)]
          show st.stackLen + 1 + stackDelta rest = st.stackLen + (stackDelta rest + 1)
          omega
      | pop =>
          show (runStackOps { st with stackLen := st.stackLen - 1, dirty := true }
              rest).stackLen = _
          rw [ih]
          show st.stackLen - 1 + stackDelta rest = st.stackLen + (stackDelta rest - 1)
          omega

/-! ### Camera memoization (claim C6) -/

/-- C6: a freshly constructed camera has memo level 0; `getMatrix`
recomputes (exactly one `_rebuild`) only then, setting the level to 1; a
second `getMatrix` with no intervening setter performs no recomputation and
returns the same matrix; any `setOptics` call resets the level to 0, after
which the next `getMatrix` performs exactly one recomputation. -/
theorem c6_camera_memoization (p q : Option OpticsParams) (c : Camera)
    (hc : initCamera p = .ok c) :
    c.compileMemoLevel = 0 ∧
    ∃ m c₁, getMatrix c = (some m, c₁) ∧
      c₁.compileMemoLevel = 1 ∧ c₁.rebuildCount = c.rebuildCount + 1 ∧
      getMatrix c₁ = (some m, c₁) ∧
      ∀ c₂, setOptics c₁ q = .ok c₂ →
        c₂.compileMemoLevel = 0 ∧
        ∃ m' c₃, getMatrix c₂ = (some m', c₃) ∧
          c₃.compileMemoLevel = 1 ∧ c₃.rebuildCount = c₂.rebuildCount + 1 := by
  rcases hp : setOpticsAttr p with e | attr
  · rw [initCamera, hp] at hc
    simp [Except.map] at hc
  · rw [initCamera, hp] at hc
    simp only [Except.map, Except.ok.injEq] at hc
    have hc0 : c = ⟨attr, none, 0, 0⟩ := hc.symm
    subst hc0
    refine ⟨rfl, (rebuildTransform attr).matrix,
      ⟨attr, some (rebuildTransform attr), 1, 1⟩, rfl, rfl, rfl, rfl, ?_⟩
    intro c₂ hq'
    rcases hq : setOpticsAttr q with e | attr'
    · rw [setOptics, hq] at hq'
      simp [Except.map] at hq'
    · rw [setOptics, hq] at hq'
      simp only [Except.map, Except.ok.injEq] at hq'
      have hc2 : c₂ = ⟨attr', some (rebuildTransform attr), 0, 1⟩ := hq'.symm
      subst hc2
      exact ⟨rfl, (rebuildTransform attr').matrix,
        ⟨attr', some (rebuildTransform attr'), 1, 2⟩, rfl, rfl, rfl⟩

/-- C6 witness: the default perspective camera — construction succeeds with
memo level 0, and the memoization contract holds for it. -/
theorem c6_camera_memoization_witness :
    initCamera none = .ok ⟨.perspective 60 1 (1/10) 5000, none, 0, 0⟩ ∧
    ((⟨.perspective 60 1 (1/10) 5000, none, 0, 0⟩ : Camera).compileMemoLevel = 0 ∧
     ∃ m c₁,
       getMatrix ⟨.perspective 60 1 (1/10) 5000, none, 0, 0⟩ = (some m, c₁) ∧
       c₁.compileMemoLevel = 1 ∧
       c₁.rebuildCount
         = (⟨.perspective 60 1 (1/10) 5000, none, 0, 0⟩ : Camera).rebuildCount + 1 ∧
       getMatrix c₁ = (some m, c₁) ∧
       ∀ c₂, setOptics c₁ none = .ok c₂ →
         c₂.compileMemoLevel = 0 ∧
         ∃ m' c₃, getMatrix c₂ = (some m', c₃) ∧
           c₃.compileMemoLevel = 1 ∧ c₃.rebuildCount = c₂.rebuildCount + 1) :=
  ⟨rfl, c6_camera_memoization none none ⟨.perspective 60 1 (1/10) 5000, none, 0, 0⟩ rfl⟩

/-! ### Getter freshness (claim C10) -/

/-- C10: `getOptics` returns a fresh shallow copy of the optics record and
`getMatrix` returns a fresh copy of the derived matrix: the returned
address differs from (and its content equals) the camera's own cell, and
mutating the returned cell leaves the camera's stored optics record, its
cached transform matrix, and (the mutation touching only the heap) its
memo level and every other field unchanged. -/
theorem c10_getters_fresh (c : CameraRef) (h : CameraHeap)
    (hwf : c.opticsAddr < h.store.length)
    (hwfm : ∀ ta, c.transformMatrixAddr = some ta → ta < h.mstore.length) :
    ((getOpticsH c h).1 ≠ c.opticsAddr ∧
     (getOpticsH c h).2.store[(getOpticsH c h).1]?
        = some (h.store.getD c.opticsAddr default) ∧
     ∀ v, (setStore (getOpticsH c h).2 (getOpticsH c h).1 v).store[c.opticsAddr]?
             = h.store[c.opticsAddr]? ∧
          (setStore (getOpticsH c h).2 (getOpticsH c h).1 v).mstore
             = (getOpticsH c h).2.mstore) ∧
    (∀ a c₁ h₁, getMatrixH c h = some (a, c₁, h₁) →
      c₁.opticsAddr = c.opticsAddr ∧ c₁.transformMatrixAddr ≠ some a ∧
      ∀ w, (setMStore h₁ a w).store = h₁.store ∧
        ∀ ta, c₁.transformMatrixAddr = some ta →
          (setMStore h₁ a w).mstore[ta]? = h₁.mstore[ta]?) := by
  constructor
  · refine ⟨Nat.ne_of_gt hwf, List.getElem?_concat_length _ _, fun v => ⟨?_, rfl⟩⟩
    show ((h.store ++ [h.store.getD c.opticsAddr default]).set
        h.store.length v)[c.opticsAddr]? = h.store[c.opticsAddr]?
    rw [List.getElem?_set_ne (Nat.ne_of_gt hwf)]
    exact List.getElem?_append_left hwf
  · intro a c₁ h₁ heq
    by_cases hm0 : c.compileMemoLevel = 0
    · rw [getMatrixH] at heq
      simp only [hm0, if_true, if_pos] at heq
      simp only [Option.some.injEq, Prod.mk.injEq] at heq
      rcases heq with ⟨ha, hc1, hh1⟩
      refine ⟨by rw [← hc1], ?_, ?_⟩
      · rw [← hc1, ← ha]
        simp only [List.length_append, List.length_cons, List.length_nil, ne_eq,
          Option.some.injEq]
        omega
      · intro w
        refine ⟨by rw [← hh1]; rfl, ?_⟩
        intro ta hta
        rw [← hc1] at hta
        simp only [Option.some.injEq] at hta
        subst hta
        rw [← hh1, ← ha]
        simp only [setMStore]
        exact List.getElem?_set_ne (by simp)
    · rw [getMatrixH] at heq
      simp only [hm0, if_false, if_neg, not_false_iff] at heq
      rcases hta0 : c.transformMatrixAddr with _ | ta0
      · rw [hta0] at heq; cases heq
      · rw [hta0] at heq
        simp only [Option.some.injEq, Prod.mk.injEq] at heq
        rcases heq with ⟨ha, hc1, hh1⟩
        have hlt := hwfm ta0 hta0
        refine ⟨by rw [← hc1], ?_, ?_⟩
        · rw [← hc1, hta0, ← ha]
          simp only [ne_eq, Option.some.injEq]
          omega
        · intro w
          refine ⟨by rw [← hh1]; rfl, ?_⟩
          intro ta hta
          rw [← hc1, hta0] at hta
          simp only [Option.some.injEq] at hta
          subst hta
          rw [← hh1, ← ha]
          simp only [setMStore]
          exact List.getElem?_set_ne (by omega)

/-- C10 witness: a camera whose optics record sits at heap address 0 with
no transform yet built — `getOptics` returns a fresh address whose content
equals the stored record, and mutating it leaves the stored cell intact. -/
theorem c10_getters_fresh_witness :
    (getOpticsH ⟨0, none, 0⟩ ⟨[.perspective 60 1 1 5000], []⟩).1 ≠ 0 ∧
    (getOpticsH ⟨0, none, 0⟩
        ⟨[.perspective 60 1 1 5000], []⟩).2.store[(getOpticsH ⟨0, none, 0⟩
        ⟨[.perspective 60 1 1 5000], []⟩).1]?
      = some (([(OpticsAttr.perspective 60 1 1 5000)] : List OpticsAttr).getD 0 default) ∧
    ∀ v, (setStore (getOpticsH ⟨0, none, 0⟩ ⟨[.perspective 60 1 1 5000], []⟩).2
            (getOpticsH ⟨0, none, 0⟩ ⟨[.perspective 60 1 1 5000], []⟩).1 v).store[0]?
            = ([(OpticsAttr.perspective 60 1 1 5000)] : List OpticsAttr)[0]? ∧
         (setStore (getOpticsH ⟨0, none, 0⟩ ⟨[.perspective 60 1 1 5000], []⟩).2
            (getOpticsH ⟨0, none, 0⟩ ⟨[.perspective 60 1 1 5000], []⟩).1 v).mstore
            = (getOpticsH ⟨0, none, 0⟩ ⟨[.perspective 60 1 1 5000], []⟩).2.mstore :=
  (c10_getters_fresh ⟨0, none, 0⟩ ⟨[.perspective 60 1 1 5000], []⟩
    (by decide) (fun ta hta => Option.noConfusion hta)).1

end SceneJS
